import Mathlib

/-!
# Verification of the personal-agent Telegram streaming/rate-limiting layer

Shallow embedding, in Lean 4, of the parts of the repository that the
claims concern:

* `src/telegram/types.ts` — `TokenBucket`, `BackoffStrategy`,
  `AdvancedRateLimiter` (admission queue, retry logic);
* `src/telegram/stream-state-manager.ts` — `StreamStateManager`
  (sessions, contexts, message versions, cleanup);
* the error-recovery module (`TelegramErrorAnalyzer.analyzeError`);
* `src/telegram/messaging/formatters/base.ts` — `TelegramStreamHandler`
  (`updateMessage`, `processUpdateQueue`, `finalize`).

Numbers (`number` in TypeScript) are modelled as `ℚ`; wall-clock
timestamps are explicit `ℚ` parameters standing for each `Date.now()`
read.  Strings are Lean `String`s; the JavaScript
`String.prototype.includes` test is modelled by substring containment on
the underlying character lists.
-/

namespace PersonalAgent

/-- JS `haystack.includes(needle)` (both already lower-cased where the
source lower-cases them). -/
def includes (haystack needle : String) : Bool :=
  decide (needle.data <:+: haystack.data)

/-! ## Rate-limit configuration (`RateLimitConfig`, types.ts lines 193-206)

`maxQueueSize` is kept as a natural number (it is only compared with a
queue length); the remaining fields are rationals. -/

structure RateLimitConfig where
  bucketCapacity : ℚ
  refillRate : ℚ
  maxQueueSize : ℕ
  baseBackoffDelay : ℚ
  maxBackoffDelay : ℚ
  monitoringWindow : ℚ
deriving DecidableEq, Repr

/-- The defaults installed by the `AdvancedRateLimiter` constructor
(types.ts lines 541-549). -/
def defaultConfig : RateLimitConfig :=
  { bucketCapacity := 30
    refillRate := 1/2
    maxQueueSize := 100
    baseBackoffDelay := 1000
    maxBackoffDelay := 30000
    monitoringWindow := 60 }

/-! ## `TokenBucket` (types.ts lines 228-299)

State: the token count and the last refill timestamp (milliseconds).
Every public method first runs `refill` against the current clock
reading, which is passed in explicitly as `now`. -/

structure TokenBucket where
  tokens : ℚ
  lastRefillTime : ℚ
deriving DecidableEq, Repr

namespace TokenBucket

/-- Constructor: a full bucket (types.ts lines 233-237). -/
def init (cfg : RateLimitConfig) (now : ℚ) : TokenBucket :=
  { tokens := cfg.bucketCapacity, lastRefillTime := now }

/-- `refill` (types.ts lines 278-290): add `elapsedSeconds * refillRate`
tokens, capped at capacity; a non-positive elapsed time (clock going
backwards) leaves the bucket untouched. -/
def refill (cfg : RateLimitConfig) (now : ℚ) (b : TokenBucket) : TokenBucket :=
  let timePassed := (now - b.lastRefillTime) / 1000
  if 0 < timePassed then
    { tokens := min cfg.bucketCapacity (b.tokens + timePassed * cfg.refillRate)
      lastRefillTime := now }
  else b

/-- `consume` (types.ts lines 242-251): refill, then take `count` tokens
when at least that many are available. -/
def consume (cfg : RateLimitConfig) (now : ℚ) (count : ℚ) (b : TokenBucket) :
    Bool × TokenBucket :=
  let b' := refill cfg now b
  if count ≤ b'.tokens then (true, { b' with tokens := b'.tokens - count })
  else (false, b')

/-- `getAvailableTokens` (types.ts lines 256-259). -/
def getAvailableTokens (cfg : RateLimitConfig) (now : ℚ) (b : TokenBucket) :
    ℚ × TokenBucket :=
  let b' := refill cfg now b
  (b'.tokens, b')

/-- `getNextTokenTime` (types.ts lines 264-273). -/
def getNextTokenTime (cfg : RateLimitConfig) (now : ℚ) (requiredTokens : ℚ)
    (b : TokenBucket) : ℚ × TokenBucket :=
  let b' := refill cfg now b
  if requiredTokens ≤ b'.tokens then (0, b')
  else
    let tokensNeeded := requiredTokens - b'.tokens
    ((Int.ceil (tokensNeeded / cfg.refillRate) : ℚ) * 1000, b')

/-- `reset` (types.ts lines 295-298). -/
def reset (cfg : RateLimitConfig) (now : ℚ) (_b : TokenBucket) : TokenBucket :=
  { tokens := cfg.bucketCapacity, lastRefillTime := now }

/-- One public-interface call, tagged with the clock reading at which it
happens; `consume` carries the requested count, `getNext` the required
token count. -/
inductive Op where
  | consume (now : ℚ) (count : ℚ)
  | getAvail (now : ℚ)
  | getNext (now : ℚ) (required : ℚ)
  | reset (now : ℚ)
deriving DecidableEq, Repr

/-- State reached after one call (return values dropped). -/
def Op.apply (cfg : RateLimitConfig) (b : TokenBucket) : Op → TokenBucket
  | .consume now count => (TokenBucket.consume cfg now count b).2
  | .getAvail now => (TokenBucket.getAvailableTokens cfg now b).2
  | .getNext now required => (TokenBucket.getNextTokenTime cfg now required b).2
  | .reset now => TokenBucket.reset cfg now b

/-- State reached after a sequence of calls. -/
def run (cfg : RateLimitConfig) (b : TokenBucket) : List Op → TokenBucket
  | [] => b
  | op :: ops => run cfg (Op.apply cfg b op) ops

/-- A `consume` count is non-negative (the callers only ever pass `1`). -/
def Op.wf : Op → Prop
  | .consume _ count => 0 ≤ count
  | _ => True

end TokenBucket

/-! ## `BackoffStrategy` (types.ts lines 447-527)

Mutable state is the single counter `consecutiveFailures`.  The jitter
`Math.random() * 0.3 + 0.85` is modelled by an explicit parameter `j`
together with the hypothesis `17/20 ≤ j < 23/20` wherever it matters. -/

namespace BackoffStrategy

/-- `getErrorMultiplier` (types.ts lines 496-518); the argument is the
already lower-cased error message. -/
def getErrorMultiplier (message : String) : ℚ :=
  if includes message "rate limit" || includes message "too many requests" then 2
  else if includes message "timeout" then 3/2
  else if includes message "server error" || includes message "internal error" then 6/5
  else 1

/-- `calculateDelay` (types.ts lines 459-476) with the sampled jitter
`j` made explicit: `Math.floor(min(base * 2^failures, maxDelay) * multiplier * j)`. -/
def calculateDelay (cfg : RateLimitConfig) (consecutiveFailures : ℕ)
    (multiplier : ℚ) (j : ℚ) : ℤ :=
  let exponentialDelay :=
    min (cfg.baseBackoffDelay * 2 ^ consecutiveFailures) cfg.maxBackoffDelay
  Int.floor (exponentialDelay * multiplier * j)

/-- `recordSuccess` (types.ts lines 481-483). -/
def recordSuccess (_consecutiveFailures : ℕ) : ℕ := 0

/-- `recordFailure` (types.ts lines 488-491). -/
def recordFailure (consecutiveFailures : ℕ) : ℕ := consecutiveFailures + 1

/-- The value the claim asserts for the delay: the same product without
the `Math.floor` the code applies. -/
def claimedDelay (cfg : RateLimitConfig) (consecutiveFailures : ℕ)
    (multiplier : ℚ) (j : ℚ) : ℚ :=
  min cfg.maxBackoffDelay (cfg.baseBackoffDelay * 2 ^ consecutiveFailures)
    * multiplier * j

end BackoffStrategy

/-! ## `AdvancedRateLimiter` admission queue (types.ts lines 532-683)

`RequestPriority` (types.ts lines 208-213) is the numeric enum
`LOW = 0, NORMAL = 1, HIGH = 2, URGENT = 3`; the queue code only ever
compares the numeric values, so priorities are naturals here.  A queued
request keeps its priority, a submission sequence number (`seq`, standing
for the order in which `execute` was called — the source's `id`/
`timestamp` pair plays this role) and its `retryCount`; the opaque
callback `data` and the promise hooks are irrelevant to queue order and
are dropped. -/

def RequestPriority.LOW : ℕ := 0
def RequestPriority.NORMAL : ℕ := 1
def RequestPriority.HIGH : ℕ := 2
def RequestPriority.URGENT : ℕ := 3

structure QueuedRequest where
  seq : ℕ
  priority : ℕ
  retryCount : ℕ
deriving DecidableEq, Repr

namespace AdvancedRateLimiter

/-- The insertion scan of `enqueueRequest` (types.ts lines 589-598):
insert before the first queued request whose priority is strictly lower
than the new one, otherwise at the end. -/
def insertByPriority (r : QueuedRequest) : List QueuedRequest → List QueuedRequest
  | [] => [r]
  | x :: xs =>
    if x.priority < r.priority then r :: x :: xs
    else x :: insertByPriority r xs

/-- `enqueueRequest` (types.ts lines 583-600): when the queue already
holds `maxQueueSize` requests the submission is rejected with the
capacity error and the queue is untouched; otherwise the request is
spliced in by priority.  The result pairs the new queue with the
rejection, if any. -/
def enqueueRequest (cfg : RateLimitConfig) (q : List QueuedRequest)
    (r : QueuedRequest) : List QueuedRequest × Option String :=
  if cfg.maxQueueSize ≤ q.length then (q, some "Request queue is full")
  else (insertByPriority r q, none)

/-- Enqueue a batch of submissions in order (repeated `execute` calls
while the processor is busy). -/
def enqueueAll (cfg : RateLimitConfig) (q : List QueuedRequest) :
    List QueuedRequest → List QueuedRequest
  | [] => q
  | r :: rs => enqueueAll cfg (enqueueRequest cfg q r).1 rs

/-- `processQueue` (types.ts lines 605-624) repeatedly `shift`s the
front request and executes it, one at a time; the order in which the
queued requests are executed is therefore the queue order, front
first. -/
def executionOrder : List QueuedRequest → List QueuedRequest
  | [] => []
  | r :: rest => r :: executionOrder rest

/-- `shouldRetry` (types.ts lines 670-683); the argument is the
lower-cased error message. -/
def shouldRetry (message : String) : Bool :=
  includes message "rate limit" ||
  includes message "timeout" ||
  includes message "network" ||
  includes message "server error" ||
  includes message "502" ||
  includes message "503" ||
  includes message "504"

/-- Outcome of the failure branch of `executeRequest` for one failed
request (types.ts lines 650-664): either the request is re-enqueued
(after the backoff sleep) with its retry count incremented, or the
caller is rejected with the error. -/
inductive RetryOutcome where
  | reenqueue (r : QueuedRequest)
  | rejectCaller
deriving DecidableEq, Repr

/-- The retry decision of `executeRequest` (types.ts lines 655-663):
re-enqueue iff `retryCount < 3` and the message matches `shouldRetry`. -/
def retryStep (r : QueuedRequest) (message : String) : RetryOutcome :=
  if r.retryCount < 3 ∧ shouldRetry message then
    .reenqueue { r with retryCount := r.retryCount + 1 }
  else .rejectCaller

/-- The stable priority order the queue is meant to maintain: earlier
entries have strictly higher priority, or equal priority and an earlier
submission number. -/
def queueOrdered (q : List QueuedRequest) : Prop :=
  q.Pairwise fun a b =>
    b.priority < a.priority ∨ (a.priority = b.priority ∧ a.seq < b.seq)

end AdvancedRateLimiter

/-! ## `TelegramErrorAnalyzer.analyzeError` (error-recovery module)

The analyzer is a pure total function from the (lower-cased) error
message to an `ErrorAnalysis`. -/

inductive TelegramErrorType where
  | RATE_LIMIT | MESSAGE_TOO_OLD | MESSAGE_DELETED | PERMISSION_DENIED
  | BOT_BLOCKED | CHAT_NOT_FOUND | NETWORK_ERROR | TIMEOUT
  | SERVER_ERROR | PARSE_ERROR | UNKNOWN
deriving DecidableEq, Repr

inductive RecoveryStrategy where
  | RETRY | FALLBACK | SKIP | ABORT | RECREATE_MESSAGE
deriving DecidableEq, Repr

structure ErrorAnalysis where
  type : TelegramErrorType
  isRetryable : Bool
  maxRetries : ℕ
  strategy : RecoveryStrategy
  backoffMultiplier : ℚ
  gracefulDegradation : Option String := none
deriving DecidableEq, Repr

namespace TelegramErrorAnalyzer

/-- `analyzeError` (error-recovery module, lines 61-180), branch for
branch; the argument is `error.message.toLowerCase()`. -/
def analyzeError (message : String) : ErrorAnalysis :=
  if includes message "rate limit" || includes message "too many requests"
      || includes message "429" then
    { type := .RATE_LIMIT, isRetryable := true, maxRetries := 5
      strategy := .RETRY, backoffMultiplier := 2 }
  else if includes message "message is not modified"
      || includes message "message to edit not found"
      || includes message "message_id_invalid" then
    { type := .MESSAGE_TOO_OLD, isRetryable := false, maxRetries := 0
      strategy := .RECREATE_MESSAGE, backoffMultiplier := 1
      gracefulDegradation := some "消息已过期，将发送新消息" }
  else if includes message "message to delete not found"
      || includes message "message was deleted" then
    { type := .MESSAGE_DELETED, isRetryable := false, maxRetries := 0
      strategy := .RECREATE_MESSAGE, backoffMultiplier := 1
      gracefulDegradation := some "消息已被删除，将发送新消息" }
  else if includes message "forbidden"
      || includes message "not enough rights"
      || includes message "chat member status" then
    { type := .PERMISSION_DENIED, isRetryable := false, maxRetries := 0
      strategy := .ABORT, backoffMultiplier := 1
      gracefulDegradation := some "权限不足，无法编辑消息" }
  else if includes message "bot was blocked"
      || includes message "user is deactivated"
      || includes message "chat not found" then
    { type := .BOT_BLOCKED, isRetryable := false, maxRetries := 0
      strategy := .ABORT, backoffMultiplier := 1
      gracefulDegradation := some "用户已阻止机器人或聊天不存在" }
  else if includes message "timeout"
      || includes message "network"
      || includes message "connection" then
    { type := .NETWORK_ERROR, isRetryable := true, maxRetries := 3
      strategy := .RETRY, backoffMultiplier := 3/2 }
  else if includes message "500" || includes message "502"
      || includes message "503" || includes message "504"
      || includes message "internal server error" then
    { type := .SERVER_ERROR, isRetryable := true, maxRetries := 3
      strategy := .RETRY, backoffMultiplier := 6/5 }
  else if includes message "parse_mode"
      || includes message "bad request"
      || includes message "can\x27t parse" then
    { type := .PARSE_ERROR, isRetryable := true, maxRetries := 1
      strategy := .FALLBACK, backoffMultiplier := 1
      gracefulDegradation := some "格式化失败，使用纯文本" }
  else
    { type := .UNKNOWN, isRetryable := true, maxRetries := 2
      strategy := .RETRY, backoffMultiplier := 3/2 }

/-- The messages matching one of the two deleted / expired-edit-target
branches (lines 76-100). -/
def editTargetGone (message : String) : Bool :=
  includes message "message is not modified"
  || includes message "message to edit not found"
  || includes message "message_id_invalid"
  || includes message "message to delete not found"
  || includes message "message was deleted"

/-- The messages matching no recognized pattern of any branch. -/
def unrecognized (message : String) : Bool :=
  !(includes message "rate limit" || includes message "too many requests"
    || includes message "429"
    || editTargetGone message
    || includes message "forbidden" || includes message "not enough rights"
    || includes message "chat member status"
    || includes message "bot was blocked" || includes message "user is deactivated"
    || includes message "chat not found"
    || includes message "timeout" || includes message "network"
    || includes message "connection"
    || includes message "500" || includes message "502"
    || includes message "503" || includes message "504"
    || includes message "internal server error"
    || includes message "parse_mode" || includes message "bad request"
    || includes message "can\x27t parse")

end TelegramErrorAnalyzer

/-! ## `StreamStateManager` (stream-state-manager.ts)

Sessions and contexts live in two maps keyed by session id, modelled as
association lists (a JS `Map` has unique keys; where a proof needs that
uniqueness it carries a `Nodup` hypothesis).  `Date.now()` is again an
explicit `now : ℚ` argument to every operation.  Of `MessageVersion`'s
fields, `byteLength`, `wordCount` and `checksum` are pure derived
functions of `content` (lines 231-235) and are not modelled — no claim
mentions them; likewise the `userSessions` reverse index, the metrics
and the auto-cleanup timer are omitted. -/

inductive SessionStatus where
  | INITIALIZING | ACTIVE | PAUSED | FINALIZING | COMPLETED | ERROR | TIMEOUT
deriving DecidableEq, Repr

structure MessageVersion where
  version : ℕ
  content : String
  timestamp : ℚ
  sentToTelegram : Bool
  telegramMessageId : Option ℤ
deriving DecidableEq, Repr

structure StreamSession where
  chatId : ℤ
  userId : ℤ
  startTime : ℚ
  lastActivity : ℚ
  status : SessionStatus
  messageId : Option ℤ
deriving DecidableEq, Repr

structure StreamContext where
  messageVersions : List MessageVersion
  currentVersion : ℕ
  totalChunks : ℕ
  processedChunks : ℕ
  errorCount : ℕ
  retryCount : ℕ
  lastCheckpoint : ℚ
deriving DecidableEq, Repr

structure CleanupConfig where
  maxSessionAge : ℚ
  maxInactiveDuration : ℚ
  maxSessionsPerUser : ℕ
deriving DecidableEq, Repr

/-- Constructor defaults (lines 100-107). -/
def defaultCleanupConfig : CleanupConfig :=
  { maxSessionAge := 30 * 60 * 1000
    maxInactiveDuration := 5 * 60 * 1000
    maxSessionsPerUser := 5 }

/-- First-match association-list lookup (`Map.get`). -/
def alookup {α : Type} (sid : String) : List (String × α) → Option α
  | [] => none
  | (k, v) :: rest => if k = sid then some v else alookup sid rest

/-- Mutate the entry under `sid` in place, if present (`Map.get` followed
by field assignments on the returned object). -/
def aupdate {α : Type} (sid : String) (f : α → α) :
    List (String × α) → List (String × α)
  | [] => []
  | (k, v) :: rest => if k = sid then (k, f v) :: rest else (k, v) :: aupdate sid f rest

structure ManagerState where
  sessions : List (String × StreamSession)
  contexts : List (String × StreamContext)
deriving DecidableEq, Repr

namespace StreamStateManager

/-- The context installed by `createSession` (lines 154-164). -/
def initialContext (now : ℚ) : StreamContext :=
  { messageVersions := [], currentVersion := 0, totalChunks := 0
    processedChunks := 0, errorCount := 0, retryCount := 0, lastCheckpoint := now }

/-- The session installed by `createSession` (lines 142-151). -/
def initialSession (now : ℚ) (chatId userId : ℤ) : StreamSession :=
  { chatId, userId, startTime := now, lastActivity := now
    status := .INITIALIZING, messageId := none }

/-- `getSession` (lines 186-188). -/
def getSession (sid : String) (st : ManagerState) : Option StreamSession :=
  alookup sid st.sessions

/-- `getContext` (lines 193-195). -/
def getContext (sid : String) (st : ManagerState) : Option StreamContext :=
  alookup sid st.contexts

/-- JS truthiness of the optional `telegramMessageId` argument
(`if (telegramMessageId)`, line 245): `undefined` and `0` are falsy. -/
def truthyId : Option ℤ → Bool
  | none => false
  | some m => decide (m ≠ 0)

/-- `addMessageVersion` (lines 218-252): build the next version record
from `currentVersion + 1`, push it, advance `currentVersion`, refresh the
session's activity time and (for a truthy id) its `messageId`. -/
def addMessageVersion (now : ℚ) (sid : String) (content : String)
    (sentToTelegram : Bool) (telegramMessageId : Option ℤ) (st : ManagerState) :
    Option MessageVersion × ManagerState :=
  match alookup sid st.contexts with
  | none => (none, st)
  | some ctx =>
    let v : MessageVersion :=
      { version := ctx.currentVersion + 1, content, timestamp := now
        sentToTelegram, telegramMessageId }
    let st1 := { st with
      contexts := aupdate sid (fun c =>
        { c with
          messageVersions := c.messageVersions ++
            [({ version := c.currentVersion + 1, content, timestamp := now
                sentToTelegram, telegramMessageId } : MessageVersion)]
          currentVersion := c.currentVersion + 1 }) st.contexts }
    let st2 := { st1 with
      sessions := aupdate sid (fun s =>
        { s with
          lastActivity := now
          messageId := if truthyId telegramMessageId then telegramMessageId
                       else s.messageId }) st1.sessions }
    (some v, st2)

/-- `recordChunk` (lines 257-273). -/
def recordChunk (now : ℚ) (sid : String) (st : ManagerState) :
    Bool × ManagerState :=
  match alookup sid st.contexts with
  | none => (false, st)
  | some _ =>
    let st1 := { st with
      contexts := aupdate sid (fun c =>
        { c with totalChunks := c.totalChunks + 1
                 processedChunks := c.processedChunks + 1
                 lastCheckpoint := now }) st.contexts }
    (true, { st1 with
      sessions := aupdate sid (fun s => { s with lastActivity := now }) st1.sessions })

/-- `recordError` (lines 278-296): increment the context's error count,
refresh the session's activity time, and flip the session to the
terminal `ERROR` status when the incremented count exceeds 3. -/
def recordError (now : ℚ) (sid : String) (st : ManagerState) :
    Bool × ManagerState :=
  match alookup sid st.contexts with
  | none => (false, st)
  | some ctx =>
    let st1 := { st with
      contexts := aupdate sid (fun c =>
        { c with errorCount := c.errorCount + 1 }) st.contexts }
    (true, { st1 with
      sessions := aupdate sid (fun s =>
        { s with
          lastActivity := now
          status := if 3 < ctx.errorCount + 1 then .ERROR else s.status }) st1.sessions })

/-- `recordRetry` (lines 301-314). -/
def recordRetry (now : ℚ) (sid : String) (st : ManagerState) :
    Bool × ManagerState :=
  match alookup sid st.contexts with
  | none => (false, st)
  | some _ =>
    let st1 := { st with
      contexts := aupdate sid (fun c =>
        { c with retryCount := c.retryCount + 1 }) st.contexts }
    (true, { st1 with
      sessions := aupdate sid (fun s => { s with lastActivity := now }) st1.sessions })

/-- The sweep condition of `performCleanup` (lines 400-406): too old,
too long inactive, or terminal by status — the code tests only
`COMPLETED` and `ERROR` here. -/
def shouldCleanup (cfg : CleanupConfig) (now : ℚ) (s : StreamSession) : Bool :=
  decide (cfg.maxSessionAge < now - s.startTime)
  || decide (cfg.maxInactiveDuration < now - s.lastActivity)
  || (s.status == SessionStatus.COMPLETED || s.status == SessionStatus.ERROR)

/-- `performCleanup` (lines 395-419): sweep every session matching
`shouldCleanup`, dropping its session and context entries
(`cleanupSession`, lines 370-390), and return how many were removed. -/
def performCleanup (now : ℚ) (cfg : CleanupConfig) (st : ManagerState) :
    ℕ × ManagerState :=
  let removed := st.sessions.filter fun p => shouldCleanup cfg now p.2
  let sessions' := st.sessions.filter fun p => !shouldCleanup cfg now p.2
  let contexts' := st.contexts.filter fun p =>
    match alookup p.1 st.sessions with
    | some s => !shouldCleanup cfg now s
    | none => true
  (removed.length, { sessions := sessions', contexts := contexts' })

/-- One state-manager call on the session store, for the interleaving
claims; each constructor carries its `Date.now()` reading. -/
inductive MOp where
  | addVersion (now : ℚ) (sid : String) (content : String)
      (sentToTelegram : Bool) (telegramMessageId : Option ℤ)
  | recError (now : ℚ) (sid : String)
  | recRetry (now : ℚ) (sid : String)
  | recChunk (now : ℚ) (sid : String)

/-- Apply one call, dropping its return value. -/
def MOp.apply (st : ManagerState) : MOp → ManagerState
  | .addVersion now sid content sent tmid =>
      (addMessageVersion now sid content sent tmid st).2
  | .recError now sid => (recordError now sid st).2
  | .recRetry now sid => (recordRetry now sid st).2
  | .recChunk now sid => (recordChunk now sid st).2

/-- Run a sequence of calls. -/
def runOps (st : ManagerState) : List MOp → ManagerState
  | [] => st
  | op :: ops => runOps (MOp.apply st op) ops

/-- The version-numbering invariant of one context: the stored versions
are numbered `1, 2, ..., n` in order and `currentVersion` is the count. -/
def ctxInv (c : StreamContext) : Prop :=
  c.messageVersions.map (fun v => v.version) =
    List.range' 1 c.messageVersions.length ∧
  c.currentVersion = c.messageVersions.length

/-- The invariant, over every context in the store. -/
def ctxInvAll (st : ManagerState) : Prop :=
  ∀ p ∈ st.contexts, ctxInv p.2

end StreamStateManager

/-! ## `TelegramStreamHandler` (messaging/formatters/base.ts lines 1335-1736)

State of one handler as far as remote traffic is concerned:
`currentText`, `lastSentText`, `messageId` and the buffered-chunk
queue.  `fmt` abstracts the deterministic text pipeline of
`updateMessage` (length truncation, lines 1616-1632, followed by
`MessageConverter.formatMarkdownForTelegram`, line 1635).  Remote calls
are modelled on their success path: `sendMessage` returns a fresh
message id `nid` and `editMessage` succeeds, so the error-recovery
branch (lines 1690-1735) is never entered.  Each operation returns the
number of remote send/edit calls it performed alongside the new
state. -/

structure HandlerState where
  currentText : String
  lastSentText : String
  messageId : Option ℤ
  updateQueue : List String
  isActive : Bool
deriving DecidableEq, Repr

namespace TelegramStreamHandler

/-- `updateMessage` (lines 1614-1689) on the success path: format the
accumulated text; if it equals `lastSentText`, skip the remote call
entirely (lines 1638-1641); otherwise send (no `messageId` yet — the
response id is recorded) or edit, and record the text as sent. -/
def updateMessage (fmt : String → String) (nid : ℤ) (s : HandlerState) :
    HandlerState × ℕ :=
  let messageText := fmt s.currentText
  if s.lastSentText = messageText then (s, 0)
  else
    match s.messageId with
    | none => ({ s with messageId := some nid, lastSentText := messageText }, 1)
    | some _ => ({ s with lastSentText := messageText }, 1)

/-- The loop body of `processUpdateQueue` (lines 1580-1609) on the
success path: shift each buffered chunk, append it to `currentText`, and
run `updateMessage`. -/
def processChunks (fmt : String → String) (nid : ℤ) :
    List String → HandlerState → HandlerState × ℕ
  | [], s => (s, 0)
  | chunk :: rest, s =>
    let r1 := updateMessage fmt nid { s with currentText := s.currentText ++ chunk }
    let r2 := processChunks fmt nid rest r1.1
    (r2.1, r1.2 + r2.2)

/-- `processUpdateQueue` (lines 1580-1609): drain the queue. -/
def processUpdateQueue (fmt : String → String) (nid : ℤ) (s : HandlerState) :
    HandlerState × ℕ :=
  processChunks fmt nid s.updateQueue { s with updateQueue := [] }

/-- `finalize()` with no `finalText` argument (lines 1462-1513): drain
the buffered chunks, then force one last update only when the
accumulated text is non-empty and differs from `lastSentText`, and
deactivate the handler.  (The session-status bookkeeping and the final
`addMessageVersion` act on the state manager, not on this state.) -/
def finalize (fmt : String → String) (nid : ℤ) (s : HandlerState) :
    HandlerState × ℕ :=
  let r := processUpdateQueue fmt nid s
  if r.1.currentText ≠ "" ∧ r.1.currentText ≠ r.1.lastSentText then
    let r2 := updateMessage fmt nid r.1
    ({ r2.1 with isActive := false }, r.2 + r2.2)
  else ({ r.1 with isActive := false }, r.2)

end TelegramStreamHandler

/-! ## Claim C1: token-bucket bounds and atomic consumption -/

namespace TokenBucket

theorem refill_bounds (cfg : RateLimitConfig) (now : ℚ) (b : TokenBucket)
    (hcap : 0 ≤ cfg.bucketCapacity) (hrate : 0 ≤ cfg.refillRate)
    (h0 : 0 ≤ b.tokens) (h1 : b.tokens ≤ cfg.bucketCapacity) :
    0 ≤ (refill cfg now b).tokens ∧
      (refill cfg now b).tokens ≤ cfg.bucketCapacity := by
  simp only [refill]
  split_ifs with ht
  · exact ⟨le_min hcap (add_nonneg h0 (mul_nonneg (le_of_lt ht) hrate)),
      min_le_left _ _⟩
  · exact ⟨h0, h1⟩

theorem apply_bounds (cfg : RateLimitConfig) (b : TokenBucket) (op : Op)
    (hcap : 0 ≤ cfg.bucketCapacity) (hrate : 0 ≤ cfg.refillRate)
    (h0 : 0 ≤ b.tokens) (h1 : b.tokens ≤ cfg.bucketCapacity)
    (hwf : op.wf) :
    0 ≤ (Op.apply cfg b op).tokens ∧
      (Op.apply cfg b op).tokens ≤ cfg.bucketCapacity := by
  cases op with
  | consume now count =>
    have hb := refill_bounds cfg now b hcap hrate h0 h1
    simp only [Op.apply, consume]
    split
    · rename_i hle
      refine ⟨by simpa using sub_nonneg.2 hle, ?_⟩
      simp only
      calc (refill cfg now b).tokens - count ≤ (refill cfg now b).tokens :=
            sub_le_self _ hwf
        _ ≤ cfg.bucketCapacity := hb.2
    · exact hb
  | getAvail now =>
    simpa only [Op.apply, getAvailableTokens] using
      refill_bounds cfg now b hcap hrate h0 h1
  | getNext now required =>
    have hb := refill_bounds cfg now b hcap hrate h0 h1
    simp only [Op.apply, getNextTokenTime]
    split <;> simpa using hb
  | reset now => exact ⟨hcap, le_refl _⟩

theorem run_bounds (cfg : RateLimitConfig) (ops : List Op) (b : TokenBucket)
    (hcap : 0 ≤ cfg.bucketCapacity) (hrate : 0 ≤ cfg.refillRate)
    (h0 : 0 ≤ b.tokens) (h1 : b.tokens ≤ cfg.bucketCapacity)
    (hwf : ∀ op ∈ ops, op.wf) :
    0 ≤ (run cfg b ops).tokens ∧
      (run cfg b ops).tokens ≤ cfg.bucketCapacity := by
  induction ops generalizing b with
  | nil => exact ⟨h0, h1⟩
  | cons op ops ih =>
    have hop := apply_bounds cfg b op hcap hrate h0 h1 (hwf op (by simp))
    exact ih _ hop.1 hop.2 fun o ho => hwf o (by simp [ho])

end TokenBucket

/-- C1.  For every bucket whose configuration has non-negative capacity
and refill rate, starting within bounds, any sequence of
`consume`/`getAvailableTokens`/`getNextTokenTime`/`reset` calls at
arbitrary clock readings keeps `0 ≤ tokens ≤ capacity`; and relative to
the refreshed bucket, a `consume n` with fewer than `n` tokens available
returns `false` and leaves the token count unchanged, while a successful
`consume n` removes exactly `n` tokens. -/
theorem tokenBucket_bounds_and_atomic_consume
    (cfg : RateLimitConfig) (b : TokenBucket) (ops : List TokenBucket.Op)
    (now n : ℚ)
    (hcap : 0 ≤ cfg.bucketCapacity) (hrate : 0 ≤ cfg.refillRate)
    (h0 : 0 ≤ b.tokens) (h1 : b.tokens ≤ cfg.bucketCapacity)
    (hwf : ∀ op ∈ ops, op.wf) :
    (0 ≤ (TokenBucket.run cfg b ops).tokens ∧
      (TokenBucket.run cfg b ops).tokens ≤ cfg.bucketCapacity) ∧
    ((TokenBucket.refill cfg now b).tokens < n →
      TokenBucket.consume cfg now n b = (false, TokenBucket.refill cfg now b)) ∧
    (n ≤ (TokenBucket.refill cfg now b).tokens →
      TokenBucket.consume cfg now n b =
        (true, { TokenBucket.refill cfg now b with
                 tokens := (TokenBucket.refill cfg now b).tokens - n })) := by
  refine ⟨TokenBucket.run_bounds cfg ops b hcap hrate h0 h1 hwf, ?_, ?_⟩
  · intro hlt
    simp only [TokenBucket.consume]
    rw [if_neg (not_le.2 hlt)]
  · intro hle
    simp only [TokenBucket.consume]
    rw [if_pos hle]

/-- Witness for C1 at the default configuration: a fresh bucket at time
0, one `consume 1` at time 1000. -/
theorem tokenBucket_bounds_and_atomic_consume_witness :
    (0 ≤ (TokenBucket.run defaultConfig (TokenBucket.init defaultConfig 0)
        [TokenBucket.Op.consume 1000 1]).tokens ∧
      (TokenBucket.run defaultConfig (TokenBucket.init defaultConfig 0)
        [TokenBucket.Op.consume 1000 1]).tokens ≤
          defaultConfig.bucketCapacity) ∧
    ((TokenBucket.refill defaultConfig 2000
        (TokenBucket.init defaultConfig 0)).tokens < 50 →
      TokenBucket.consume defaultConfig 2000 50
          (TokenBucket.init defaultConfig 0) =
        (false, TokenBucket.refill defaultConfig 2000
          (TokenBucket.init defaultConfig 0))) ∧
    (50 ≤ (TokenBucket.refill defaultConfig 2000
        (TokenBucket.init defaultConfig 0)).tokens →
      TokenBucket.consume defaultConfig 2000 50
          (TokenBucket.init defaultConfig 0) =
        (true, { TokenBucket.refill defaultConfig 2000
                   (TokenBucket.init defaultConfig 0) with
                 tokens := (TokenBucket.refill defaultConfig 2000
                   (TokenBucket.init defaultConfig 0)).tokens - 50 })) :=
  tokenBucket_bounds_and_atomic_consume defaultConfig
    (TokenBucket.init defaultConfig 0) [TokenBucket.Op.consume 1000 1] 2000 50
    (by norm_num [defaultConfig]) (by norm_num [defaultConfig])
    (by norm_num [defaultConfig, TokenBucket.init])
    (by norm_num [defaultConfig, TokenBucket.init])
    (by intro op hop; simp at hop; simp [hop, TokenBucket.Op.wf])

/-! ## Claim C2: stable priority order of the admission queue -/

namespace AdvancedRateLimiter

theorem mem_insertByPriority (r y : QueuedRequest) :
    ∀ q : List QueuedRequest, y ∈ insertByPriority r q ↔ y = r ∨ y ∈ q := by
  intro q
  induction q with
  | nil => simp [insertByPriority]
  | cons x xs ih =>
    simp only [insertByPriority]
    split_ifs
    · simp
    · simp only [List.mem_cons, ih]
      tauto

theorem queueOrdered_insertByPriority (r : QueuedRequest) :
    ∀ q : List QueuedRequest, queueOrdered q → (∀ x ∈ q, x.seq < r.seq) →
      queueOrdered (insertByPriority r q) := by
  intro q
  induction q with
  | nil =>
    intro _ _
    simp [insertByPriority, queueOrdered]
  | cons x xs ih =>
    intro hq hseq
    have hx : ∀ y ∈ xs, y.priority < x.priority ∨
        (x.priority = y.priority ∧ x.seq < y.seq) :=
      (List.pairwise_cons.1 hq).1
    have hxs : queueOrdered xs := (List.pairwise_cons.1 hq).2
    simp only [insertByPriority]
    split_ifs with hlt
    · rw [queueOrdered, List.pairwise_cons]
      refine ⟨?_, hq⟩
      intro y hy
      rcases List.mem_cons.1 hy with rfl | hy'
      · exact Or.inl hlt
      · rcases hx y hy' with h | h
        · exact Or.inl (h.trans hlt)
        · exact Or.inl (h.1 ▸ hlt)
    · rw [queueOrdered, List.pairwise_cons]
      refine ⟨?_, ih hxs fun z hz => hseq z (List.mem_cons_of_mem x hz)⟩
      intro y hy
      rcases (mem_insertByPriority r y xs).1 hy with rfl | hy'
      · rcases lt_or_eq_of_le (not_lt.1 hlt) with h | h
        · exact Or.inl h
        · exact Or.inr ⟨h.symm, hseq x (List.mem_cons_self x xs)⟩
      · exact hx y hy'

end AdvancedRateLimiter

/-- C2.  Enqueuing preserves the stable priority-descending queue order
(every pending request submitted earlier than the new one), and the
processor executes requests in queue order; in particular the four
submissions with priorities `[LOW, URGENT, NORMAL, URGENT]` are executed
in the order `[URGENT, URGENT, NORMAL, LOW]`, with the two `URGENT`
requests in submission order. -/
theorem admissionQueue_stable_priority_order :
    (∀ (cfg : RateLimitConfig) (q : List QueuedRequest) (r : QueuedRequest),
      AdvancedRateLimiter.queueOrdered q → (∀ x ∈ q, x.seq < r.seq) →
        AdvancedRateLimiter.queueOrdered
          (AdvancedRateLimiter.enqueueRequest cfg q r).1) ∧
    AdvancedRateLimiter.executionOrder
      (AdvancedRateLimiter.enqueueAll defaultConfig []
        [⟨0, RequestPriority.LOW, 0⟩, ⟨1, RequestPriority.URGENT, 0⟩,
         ⟨2, RequestPriority.NORMAL, 0⟩, ⟨3, RequestPriority.URGENT, 0⟩]) =
      [⟨1, RequestPriority.URGENT, 0⟩, ⟨3, RequestPriority.URGENT, 0⟩,
       ⟨2, RequestPriority.NORMAL, 0⟩, ⟨0, RequestPriority.LOW, 0⟩] := by
  constructor
  · intro cfg q r hq hseq
    unfold AdvancedRateLimiter.enqueueRequest
    split_ifs with hfull
    · exact hq
    · exact AdvancedRateLimiter.queueOrdered_insertByPriority r q hq hseq
  · decide

/-- Witness for C2: inserting a fresh request into the singleton ordered
queue keeps it ordered. -/
theorem admissionQueue_stable_priority_order_witness :
    AdvancedRateLimiter.queueOrdered
      (AdvancedRateLimiter.enqueueRequest defaultConfig
        [⟨0, RequestPriority.NORMAL, 0⟩] ⟨1, RequestPriority.URGENT, 0⟩).1 :=
  admissionQueue_stable_priority_order.1 defaultConfig
    [⟨0, RequestPriority.NORMAL, 0⟩] ⟨1, RequestPriority.URGENT, 0⟩
    (by simp [AdvancedRateLimiter.queueOrdered]) (by decide)

/-! ## Claim C9: queue overflow rejects immediately, queue untouched -/

/-- C9.  A submission made while the queue already holds `maxQueueSize`
pending requests is rejected with the capacity error "Request queue is
full"; the queue is returned unchanged, and the rejected request is not
added to it. -/
theorem admissionQueue_overflow_backpressure
    (cfg : RateLimitConfig) (q : List QueuedRequest) (r : QueuedRequest)
    (hfull : cfg.maxQueueSize ≤ q.length) :
    AdvancedRateLimiter.enqueueRequest cfg q r =
      (q, some "Request queue is full") ∧
    (r ∉ q → r ∉ (AdvancedRateLimiter.enqueueRequest cfg q r).1) := by
  have h : AdvancedRateLimiter.enqueueRequest cfg q r =
      (q, some "Request queue is full") := by
    unfold AdvancedRateLimiter.enqueueRequest
    rw [if_pos hfull]
  exact ⟨h, fun hr => by rw [h]; exact hr⟩

/-- Witness for C9: submitting to an admission queue configured with
capacity 2 that already holds two requests. -/
theorem admissionQueue_overflow_backpressure_witness :
    AdvancedRateLimiter.enqueueRequest { defaultConfig with maxQueueSize := 2 }
        [⟨0, RequestPriority.NORMAL, 0⟩, ⟨1, RequestPriority.LOW, 0⟩]
        ⟨2, RequestPriority.URGENT, 0⟩ =
      ([⟨0, RequestPriority.NORMAL, 0⟩, ⟨1, RequestPriority.LOW, 0⟩],
        some "Request queue is full") :=
  (admissionQueue_overflow_backpressure
    { defaultConfig with maxQueueSize := 2 }
    [⟨0, RequestPriority.NORMAL, 0⟩, ⟨1, RequestPriority.LOW, 0⟩]
    ⟨2, RequestPriority.URGENT, 0⟩ (by decide)).1

/-! ## Claim C3: the retry decision of `executeRequest`

The claim asserts the per-class `maxRetries` of the error classification
(5 for rate-limited failures) governs re-enqueueing.  The code instead
hardcodes `request.retryCount < 3` and its own pattern list
`shouldRetry`, which does not even contain "too many requests". -/

/-- Counterexample to C3 as stated: the failure message
"too many requests" is classified rate-limited and retryable with
`maxRetries = 5`, yet `executeRequest` rejects the caller already at
retry count 0 (and likewise rejects a "rate limit" failure at retry
count 3 < 5), because its retry test is `retryCount < 3 ∧ shouldRetry`
and `shouldRetry` does not match "too many requests". -/
theorem executeRequest_retry_ignores_classification :
    (TelegramErrorAnalyzer.analyzeError "too many requests").isRetryable = true ∧
    (TelegramErrorAnalyzer.analyzeError "too many requests").maxRetries = 5 ∧
    AdvancedRateLimiter.shouldRetry "too many requests" = false ∧
    AdvancedRateLimiter.retryStep ⟨0, RequestPriority.NORMAL, 0⟩
      "too many requests" = .rejectCaller ∧
    (TelegramErrorAnalyzer.analyzeError "rate limit").maxRetries = 5 ∧
    AdvancedRateLimiter.retryStep ⟨0, RequestPriority.NORMAL, 3⟩
      "rate limit" = .rejectCaller := by
  refine ⟨by decide, by decide, by decide, ?_, by decide, ?_⟩ <;> decide

/-- C3 (amended).  A failed request is re-enqueued with its retry count
incremented exactly when its current retry count is below the hardcoded
limit 3 and the failure message matches the limiter's own retryable
pattern list (`rate limit`, `timeout`, `network`, `server error`, `502`,
`503`, `504`); otherwise the caller is rejected with the terminal
failure.  The classification's per-class `maxRetries` is not
consulted. -/
theorem executeRequest_retry_decision (r : QueuedRequest) (msg : String) :
    (AdvancedRateLimiter.retryStep r msg =
        .reenqueue { r with retryCount := r.retryCount + 1 } ↔
      r.retryCount < 3 ∧ AdvancedRateLimiter.shouldRetry msg = true) ∧
    (3 ≤ r.retryCount ∨ AdvancedRateLimiter.shouldRetry msg = false →
      AdvancedRateLimiter.retryStep r msg = .rejectCaller) := by
  constructor
  · unfold AdvancedRateLimiter.retryStep
    split_ifs with h
    · simp [h]
    · constructor
      · intro heq
        exact absurd heq (by simp)
      · intro hc
        exact absurd hc h
  · intro h
    unfold AdvancedRateLimiter.retryStep
    rw [if_neg]
    rcases h with h | h
    · exact fun hc => absurd hc.1 (not_lt.2 h)
    · exact fun hc => by rw [h] at hc; exact Bool.false_ne_true hc.2

/-- Witness for C3 (amended): a "timeout" failure at retry count 2 is
re-enqueued with count 3; at retry count 3 the caller is rejected. -/
theorem executeRequest_retry_decision_witness :
    (AdvancedRateLimiter.retryStep ⟨0, RequestPriority.NORMAL, 2⟩ "timeout" =
        .reenqueue ⟨0, RequestPriority.NORMAL, 3⟩ ↔
      (2 : ℕ) < 3 ∧ AdvancedRateLimiter.shouldRetry "timeout" = true) ∧
    AdvancedRateLimiter.retryStep ⟨0, RequestPriority.NORMAL, 3⟩ "timeout" =
      .rejectCaller :=
  ⟨(executeRequest_retry_decision ⟨0, RequestPriority.NORMAL, 2⟩ "timeout").1,
    (executeRequest_retry_decision ⟨0, RequestPriority.NORMAL, 3⟩ "timeout").2
      (Or.inl (by decide))⟩

/-! ## Claim C5: total error classification -/

/-- C5.  `analyzeError` is a total function (it is defined for every
message and always lands in one of the eleven classes); every message
containing "too many requests" classifies as rate-limited / retryable /
`maxRetries 5` / strategy retry / multiplier 2.0; every message matching
a deleted-or-expired-edit-target pattern (and not a rate-limit pattern,
which is tested first) classifies non-retryable with `maxRetries 0` and
strategy recreate; and every message matching no recognized pattern
classifies as unknown / retryable / `maxRetries 2` / multiplier 1.5. -/
theorem analyzeError_total_classification :
    (∀ msg : String, includes msg "too many requests" = true →
      TelegramErrorAnalyzer.analyzeError msg =
        { type := .RATE_LIMIT, isRetryable := true, maxRetries := 5
          strategy := .RETRY, backoffMultiplier := 2 }) ∧
    (∀ msg : String, TelegramErrorAnalyzer.editTargetGone msg = true →
      includes msg "rate limit" = false →
      includes msg "too many requests" = false →
      includes msg "429" = false →
      (TelegramErrorAnalyzer.analyzeError msg).isRetryable = false ∧
      (TelegramErrorAnalyzer.analyzeError msg).maxRetries = 0 ∧
      (TelegramErrorAnalyzer.analyzeError msg).strategy = .RECREATE_MESSAGE) ∧
    (∀ msg : String, TelegramErrorAnalyzer.unrecognized msg = true →
      TelegramErrorAnalyzer.analyzeError msg =
        { type := .UNKNOWN, isRetryable := true, maxRetries := 2
          strategy := .RETRY, backoffMultiplier := 3/2 }) := by
  refine ⟨?_, ?_, ?_⟩
  · intro msg h
    unfold TelegramErrorAnalyzer.analyzeError
    rw [if_pos (by rw [h]; simp)]
  · intro msg hgone h1 h2 h3
    unfold TelegramErrorAnalyzer.analyzeError
    rw [if_neg (by rw [h1, h2, h3]; simp)]
    by_cases hb : (includes msg "message is not modified"
        || includes msg "message to edit not found"
        || includes msg "message_id_invalid") = true
    · rw [if_pos hb]
      exact ⟨rfl, rfl, rfl⟩
    · rw [if_neg hb]
      have hb' := Bool.eq_false_iff.2 hb
      simp only [Bool.or_eq_false_iff] at hb'
      have hdel : (includes msg "message to delete not found"
          || includes msg "message was deleted") = true := by
        unfold TelegramErrorAnalyzer.editTargetGone at hgone
        rw [hb'.1.1, hb'.1.2, hb'.2] at hgone
        simpa using hgone
      rw [if_pos hdel]
      exact ⟨rfl, rfl, rfl⟩
  · intro msg h
    unfold TelegramErrorAnalyzer.unrecognized TelegramErrorAnalyzer.editTargetGone at h
    rw [Bool.not_eq_true'] at h
    simp only [Bool.or_eq_false_iff, and_assoc] at h
    obtain ⟨h1, h2, h3, h4, h5, h6, h7, h8, h9, h10, h11, h12, h13, h14, h15,
      h16, h17, h18, h19, h20, h21, h22, h23, h24, h25⟩ := h
    unfold TelegramErrorAnalyzer.analyzeError
    rw [if_neg (by rw [h1, h2, h3]; simp),
      if_neg (by rw [h4, h5, h6]; simp),
      if_neg (by rw [h7, h8]; simp),
      if_neg (by rw [h9, h10, h11]; simp),
      if_neg (by rw [h12, h13, h14]; simp),
      if_neg (by rw [h15, h16, h17]; simp),
      if_neg (by rw [h18, h19, h20, h21, h22]; simp),
      if_neg (by rw [h23, h24, h25]; simp)]

/-- Witness for C5 at three concrete messages: "too many requests",
"message to edit not found", and the unrecognized "boom". -/
theorem analyzeError_total_classification_witness :
    TelegramErrorAnalyzer.analyzeError "too many requests" =
      { type := .RATE_LIMIT, isRetryable := true, maxRetries := 5
        strategy := .RETRY, backoffMultiplier := 2 } ∧
    ((TelegramErrorAnalyzer.analyzeError "message to edit not found").isRetryable
        = false ∧
      (TelegramErrorAnalyzer.analyzeError "message to edit not found").maxRetries
        = 0 ∧
      (TelegramErrorAnalyzer.analyzeError "message to edit not found").strategy
        = .RECREATE_MESSAGE) ∧
    TelegramErrorAnalyzer.analyzeError "boom" =
      { type := .UNKNOWN, isRetryable := true, maxRetries := 2
        strategy := .RETRY, backoffMultiplier := 3/2 } :=
  ⟨analyzeError_total_classification.1 "too many requests" (by decide),
    analyzeError_total_classification.2.1 "message to edit not found"
      (by decide) (by decide) (by decide) (by decide),
    analyzeError_total_classification.2.2 "boom" (by decide)⟩

/-! ## Claim C4: gapless, append-only message versions -/

theorem alookup_aupdate_self {α : Type} (sid : String) (f : α → α) :
    ∀ l : List (String × α), alookup sid (aupdate sid f l) = (alookup sid l).map f := by
  intro l
  induction l with
  | nil => simp [alookup, aupdate]
  | cons p rest ih =>
    obtain ⟨k, v⟩ := p
    by_cases hk : k = sid
    · simp [alookup, aupdate, hk]
    · simp [alookup, aupdate, hk, ih]

theorem alookup_aupdate_ne {α : Type} (sid sid' : String) (hne : sid' ≠ sid)
    (f : α → α) :
    ∀ l : List (String × α), alookup sid' (aupdate sid f l) = alookup sid' l := by
  intro l
  induction l with
  | nil => simp [aupdate]
  | cons p rest ih =>
    obtain ⟨k, v⟩ := p
    by_cases hk : k = sid
    · subst hk
      simp [alookup, aupdate, Ne.symm hne]
    · by_cases hk' : k = sid'
      · simp [alookup, aupdate, hk, hk', hne]
      · simp [alookup, aupdate, hk, hk', ih]

theorem forall_mem_aupdate {α : Type} (P : α → Prop) (sid : String) (f : α → α)
    (hf : ∀ v, P v → P (f v)) :
    ∀ l : List (String × α), (∀ p ∈ l, P p.2) → ∀ p ∈ aupdate sid f l, P p.2 := by
  intro l
  induction l with
  | nil => simp [aupdate]
  | cons q rest ih =>
    intro h p hp
    obtain ⟨k, v⟩ := q
    simp only [aupdate] at hp
    split_ifs at hp with hk
    · rcases List.mem_cons.1 hp with rfl | hp'
      · exact hf v (h (k, v) (List.mem_cons_self _ _))
      · exact h p (List.mem_cons_of_mem _ hp')
    · rcases List.mem_cons.1 hp with rfl | hp'
      · exact h (k, v) (List.mem_cons_self _ _)
      · exact ih (fun q hq => h q (List.mem_cons_of_mem _ hq)) p hp'

theorem range'_snoc (s n : ℕ) :
    List.range' s (n + 1) = List.range' s n ++ [s + n] := by
  induction n generalizing s with
  | zero => simp [List.range']
  | succ m ih =>
    rw [List.range'_succ, ih (s + 1), List.range'_succ, List.cons_append,
      (by omega : s + 1 + m = s + (m + 1))]

namespace StreamStateManager

theorem ctxInv_addVersion (content : String) (now : ℚ) (sent : Bool)
    (tmid : Option ℤ) (c : StreamContext) (h : ctxInv c) :
    ctxInv { c with
      messageVersions := c.messageVersions ++
        [({ version := c.currentVersion + 1, content := content, timestamp := now
            sentToTelegram := sent, telegramMessageId := tmid } : MessageVersion)]
      currentVersion := c.currentVersion + 1 } := by
  obtain ⟨hmap, hlen⟩ := h
  constructor
  · simp only [List.map_append, List.length_append, hmap, List.map_cons,
      List.map_nil, List.length_cons, List.length_nil, hlen]
    rw [range'_snoc]
    simp [Nat.add_comm]
  · simp [hlen]

theorem ctxInvAll_apply (st : ManagerState) (op : MOp) (h : ctxInvAll st) :
    ctxInvAll (MOp.apply st op) := by
  cases op with
  | addVersion now sid content sent tmid =>
    simp only [MOp.apply, addMessageVersion]
    cases halk : alookup sid st.contexts with
    | none => simpa [halk] using h
    | some ctx =>
      simp only [halk]
      intro p hp
      exact forall_mem_aupdate ctxInv sid _
        (fun v hv => ctxInv_addVersion content now sent tmid v hv)
        st.contexts h p hp
  | recError now sid =>
    simp only [MOp.apply, recordError]
    cases halk : alookup sid st.contexts with
    | none => simpa [halk] using h
    | some ctx =>
      simp only [halk]
      intro p hp
      refine forall_mem_aupdate ctxInv sid _ ?_ st.contexts h p hp
      intro v hv
      exact ⟨hv.1, hv.2⟩
  | recRetry now sid =>
    simp only [MOp.apply, recordRetry]
    cases halk : alookup sid st.contexts with
    | none => simpa [halk] using h
    | some ctx =>
      simp only [halk]
      intro p hp
      refine forall_mem_aupdate ctxInv sid _ ?_ st.contexts h p hp
      intro v hv
      exact ⟨hv.1, hv.2⟩
  | recChunk now sid =>
    simp only [MOp.apply, recordChunk]
    cases halk : alookup sid st.contexts with
    | none => simpa [halk] using h
    | some ctx =>
      simp only [halk]
      intro p hp
      refine forall_mem_aupdate ctxInv sid _ ?_ st.contexts h p hp
      intro v hv
      exact ⟨hv.1, hv.2⟩

theorem ctxInvAll_runOps (ops : List MOp) (st : ManagerState)
    (h : ctxInvAll st) : ctxInvAll (runOps st ops) := by
  induction ops generalizing st with
  | nil => exact h
  | cons op ops ih => exact ih _ (ctxInvAll_apply st op h)

theorem apply_context_extends (st : ManagerState) (op : MOp) (sid : String)
    (c : StreamContext) (h : alookup sid st.contexts = some c) :
    ∃ c', alookup sid (MOp.apply st op).contexts = some c' ∧
      ∃ t, c'.messageVersions = c.messageVersions ++ t := by
  have step : ∀ (sid₀ : String) (f : StreamContext → StreamContext),
      (∀ v, ∃ t, (f v).messageVersions = v.messageVersions ++ t) →
      ∃ c', alookup sid (aupdate sid₀ f st.contexts) = some c' ∧
        ∃ t, c'.messageVersions = c.messageVersions ++ t := by
    intro sid₀ f hf
    by_cases hsid : sid = sid₀
    · subst hsid
      refine ⟨f c, ?_, hf c⟩
      rw [alookup_aupdate_self, h, Option.map_some']
    · exact ⟨c, by rw [alookup_aupdate_ne sid₀ sid hsid f, h], [], by simp⟩
  cases op with
  | addVersion now sid₀ content sent tmid =>
    simp only [MOp.apply, addMessageVersion]
    cases halk : alookup sid₀ st.contexts with
    | none => exact ⟨c, h, [], by simp⟩
    | some ctx =>
      simp only
      exact step sid₀ _ fun v => ⟨_, rfl⟩
  | recError now sid₀ =>
    simp only [MOp.apply, recordError]
    cases halk : alookup sid₀ st.contexts with
    | none => exact ⟨c, h, [], by simp⟩
    | some ctx =>
      simp only
      exact step sid₀ _ fun v => ⟨[], by simp⟩
  | recRetry now sid₀ =>
    simp only [MOp.apply, recordRetry]
    cases halk : alookup sid₀ st.contexts with
    | none => exact ⟨c, h, [], by simp⟩
    | some ctx =>
      simp only
      exact step sid₀ _ fun v => ⟨[], by simp⟩
  | recChunk now sid₀ =>
    simp only [MOp.apply, recordChunk]
    cases halk : alookup sid₀ st.contexts with
    | none => exact ⟨c, h, [], by simp⟩
    | some ctx =>
      simp only
      exact step sid₀ _ fun v => ⟨[], by simp⟩

theorem runOps_context_extends (ops : List MOp) (st : ManagerState)
    (sid : String) (c : StreamContext) (h : alookup sid st.contexts = some c) :
    ∃ c', alookup sid (runOps st ops).contexts = some c' ∧
      ∃ t, c'.messageVersions = c.messageVersions ++ t := by
  induction ops generalizing st c with
  | nil => exact ⟨c, h, [], by simp⟩
  | cons op ops ih =>
    obtain ⟨c₁, h₁, t₁, ht₁⟩ := apply_context_extends st op sid c h
    obtain ⟨c₂, h₂, t₂, ht₂⟩ := ih (MOp.apply st op) c₁ h₁
    exact ⟨c₂, h₂, t₁ ++ t₂, by rw [ht₂, ht₁, List.append_assoc]⟩

end StreamStateManager

/-- C4.  A fresh context satisfies the version invariant; a successful
`addMessageVersion` returns a version numbered `currentVersion + 1` and
advances `currentVersion` to that number; the invariant — stored version
numbers are exactly `1, 2, ..., n` in order — is preserved by every
sequence of `addMessageVersion`/`recordError`/`recordRetry`/`recordChunk`
calls; and the version list only ever grows by appending, so existing
version records are never mutated. -/
theorem messageVersions_gapless_append_only :
    (∀ now : ℚ, StreamStateManager.ctxInv (StreamStateManager.initialContext now)) ∧
    (∀ (now : ℚ) (sid content : String) (sent : Bool) (tmid : Option ℤ)
        (st : ManagerState) (ctx : StreamContext),
      alookup sid st.contexts = some ctx →
      (StreamStateManager.addMessageVersion now sid content sent tmid st).1 =
        some { version := ctx.currentVersion + 1, content := content
               timestamp := now, sentToTelegram := sent
               telegramMessageId := tmid } ∧
      StreamStateManager.getContext sid
          (StreamStateManager.addMessageVersion now sid content sent tmid st).2 =
        some { ctx with
          messageVersions := ctx.messageVersions ++
            [({ version := ctx.currentVersion + 1, content := content
                timestamp := now, sentToTelegram := sent
                telegramMessageId := tmid } : MessageVersion)]
          currentVersion := ctx.currentVersion + 1 }) ∧
    (∀ (st : ManagerState) (ops : List StreamStateManager.MOp),
      StreamStateManager.ctxInvAll st →
      StreamStateManager.ctxInvAll (StreamStateManager.runOps st ops)) ∧
    (∀ (st : ManagerState) (ops : List StreamStateManager.MOp)
        (sid : String) (c : StreamContext),
      alookup sid st.contexts = some c →
      ∃ c', alookup sid (StreamStateManager.runOps st ops).contexts = some c' ∧
        ∃ t, c'.messageVersions = c.messageVersions ++ t) := by
  refine ⟨?_, ?_, ?_, ?_⟩
  · intro now
    exact ⟨by simp [StreamStateManager.initialContext],
      by simp [StreamStateManager.initialContext]⟩
  · intro now sid content sent tmid st ctx h
    constructor
    · simp only [StreamStateManager.addMessageVersion, h]
    · simp only [StreamStateManager.addMessageVersion, h,
        StreamStateManager.getContext]
      rw [alookup_aupdate_self, h, Option.map_some']
  · intro st ops h
    exact StreamStateManager.ctxInvAll_runOps ops st h
  · intro st ops sid c h
    exact StreamStateManager.runOps_context_extends ops st sid c h

/-- Witness for C4: one `addMessageVersion` followed by a `recordError`
on a freshly created context produces version 1 and keeps it intact. -/
theorem messageVersions_gapless_append_only_witness :
    StreamStateManager.ctxInv (StreamStateManager.initialContext 0) ∧
    (StreamStateManager.addMessageVersion 5 "s" "hello" true (some 7)
        ⟨[("s", StreamStateManager.initialSession 0 1 2)],
         [("s", StreamStateManager.initialContext 0)]⟩).1 =
      some { version := 1, content := "hello", timestamp := 5
             sentToTelegram := true, telegramMessageId := some 7 } ∧
    StreamStateManager.ctxInvAll
      (StreamStateManager.runOps
        ⟨[("s", StreamStateManager.initialSession 0 1 2)],
         [("s", StreamStateManager.initialContext 0)]⟩
        [.addVersion 5 "s" "hello" true (some 7), .recError 6 "s"]) := by
  refine ⟨messageVersions_gapless_append_only.1 0, ?_, ?_⟩
  · have h := (messageVersions_gapless_append_only.2.1 5 "s" "hello" true (some 7)
      ⟨[("s", StreamStateManager.initialSession 0 1 2)],
       [("s", StreamStateManager.initialContext 0)]⟩
      (StreamStateManager.initialContext 0) (by simp [alookup])).1
    simpa [StreamStateManager.initialContext] using h
  · refine messageVersions_gapless_append_only.2.2.1
      ⟨[("s", StreamStateManager.initialSession 0 1 2)],
       [("s", StreamStateManager.initialContext 0)]⟩
      [.addVersion 5 "s" "hello" true (some 7), .recError 6 "s"] ?_
    intro p hp
    simp only [List.mem_singleton] at hp
    subst hp
    exact messageVersions_gapless_append_only.1 0

/-! ## Claim C6: the cleanup sweep

The claim lists `completed`, `error` **and** `timeout` as the terminal
statuses eligible for sweeping; the code's `shouldCleanup` condition
(stream-state-manager.ts lines 403-406) tests only `COMPLETED` and
`ERROR`, so a fresh `TIMEOUT` session survives a sweep. -/

theorem alookup_eq_none_of_not_mem {α : Type} (sid : String) :
    ∀ l : List (String × α), sid ∉ l.map Prod.fst → alookup sid l = none := by
  intro l
  induction l with
  | nil => intro _; rfl
  | cons p rest ih =>
    intro h
    obtain ⟨k, v⟩ := p
    simp only [List.map_cons, List.mem_cons] at h
    push_neg at h
    simp only [alookup, if_neg (fun hk : k = sid => h.1 hk.symm)]
    exact ih h.2

theorem alookup_filter {α : Type} (P : String × α → Bool) (sid : String) (v : α) :
    ∀ l : List (String × α), (l.map Prod.fst).Nodup →
      alookup sid l = some v →
      alookup sid (l.filter P) = if P (sid, v) then some v else none := by
  intro l
  induction l with
  | nil => intro _ h; exact absurd h (by simp [alookup])
  | cons p rest ih =>
    intro hnd h
    obtain ⟨k, w⟩ := p
    simp only [List.map_cons, List.nodup_cons] at hnd
    by_cases hk : k = sid
    · subst hk
      have hv : w = v := by simpa [alookup] using h
      subst hv
      cases hp : P (k, w) with
      | true =>
        simp [List.filter_cons, hp, alookup]
      | false =>
        simp only [List.filter_cons, hp, if_pos rfl]
        rw [if_neg (by simp [hp])]
        refine alookup_eq_none_of_not_mem k _ fun hmem => hnd.1 ?_
        obtain ⟨q, hq, hq1⟩ := List.mem_map.1 hmem
        exact List.mem_map.2 ⟨q, List.mem_of_mem_filter hq, hq1⟩
    · have h' : alookup sid rest = some v := by simpa [alookup, hk] using h
      cases hp : P (k, w) with
      | true => simp [List.filter_cons, hp, alookup, hk, ih hnd.2 h']
      | false => simp [List.filter_cons, hp, ih hnd.2 h']

/-- Counterexample to C6 as stated: a session whose status is the
terminal `TIMEOUT`, created and active at time 0, is NOT removed by a
sweep at time 0 — `performCleanup` returns 0 and the session is still
retrievable — although the claim says every terminal-status session
(completed, error, or timeout) is removed. -/
theorem performCleanup_does_not_sweep_timeout :
    StreamStateManager.performCleanup 0 defaultCleanupConfig
        ⟨[("s", { chatId := 1, userId := 2, startTime := 0, lastActivity := 0
                  status := .TIMEOUT, messageId := none })],
         [("s", StreamStateManager.initialContext 0)]⟩ =
      (0, ⟨[("s", { chatId := 1, userId := 2, startTime := 0, lastActivity := 0
                    status := .TIMEOUT, messageId := none })],
           [("s", StreamStateManager.initialContext 0)]⟩) ∧
    StreamStateManager.getSession "s"
        (StreamStateManager.performCleanup 0 defaultCleanupConfig
          ⟨[("s", { chatId := 1, userId := 2, startTime := 0, lastActivity := 0
                    status := .TIMEOUT, messageId := none })],
           [("s", StreamStateManager.initialContext 0)]⟩).2 =
      some { chatId := 1, userId := 2, startTime := 0, lastActivity := 0
             status := .TIMEOUT, messageId := none } := by
  have hsc : StreamStateManager.shouldCleanup defaultCleanupConfig 0
      { chatId := 1, userId := 2, startTime := 0, lastActivity := 0
        status := .TIMEOUT, messageId := none } = false := by
    simp only [StreamStateManager.shouldCleanup, defaultCleanupConfig,
      Bool.or_eq_false_iff, decide_eq_false_iff_not, and_assoc]
    refine ⟨by norm_num, by norm_num, by decide⟩
  constructor
  · simp [StreamStateManager.performCleanup, hsc, alookup]
  · simp [StreamStateManager.performCleanup, StreamStateManager.getSession,
      hsc, alookup]

/-- C6 (amended).  A sweep at `now` removes exactly those sessions whose
age exceeds `maxSessionAge`, whose inactivity exceeds
`maxInactiveDuration`, or whose status is `COMPLETED` or `ERROR`
(`TIMEOUT` is not swept by status), and returns the number removed; in
particular a session created at `T` under `maxInactiveDuration = 5000`
with no subsequent activity is removed by a sweep at `T + 6000`, after
which `getSession`/`getContext` return `none` for it. -/
theorem performCleanup_spec :
    (∀ (now : ℚ) (cfg : CleanupConfig) (st : ManagerState),
      (StreamStateManager.performCleanup now cfg st).1 =
        st.sessions.countP fun p => StreamStateManager.shouldCleanup cfg now p.2) ∧
    (∀ (now : ℚ) (cfg : CleanupConfig) (st : ManagerState) (sid : String)
        (s : StreamSession), (st.sessions.map Prod.fst).Nodup →
      alookup sid st.sessions = some s →
      StreamStateManager.getSession sid
          (StreamStateManager.performCleanup now cfg st).2 =
        if StreamStateManager.shouldCleanup cfg now s then none else some s) ∧
    (∀ (now : ℚ) (cfg : CleanupConfig) (st : ManagerState) (sid : String)
        (s : StreamSession) (c : StreamContext),
      (st.contexts.map Prod.fst).Nodup →
      alookup sid st.sessions = some s →
      alookup sid st.contexts = some c →
      StreamStateManager.getContext sid
          (StreamStateManager.performCleanup now cfg st).2 =
        if StreamStateManager.shouldCleanup cfg now s then none else some c) ∧
    (∀ (T : ℚ) (sid : String) (chatId userId : ℤ),
      StreamStateManager.performCleanup (T + 6000)
          { defaultCleanupConfig with maxInactiveDuration := 5000 }
          ⟨[(sid, StreamStateManager.initialSession T chatId userId)],
           [(sid, StreamStateManager.initialContext T)]⟩ =
        (1, ⟨[], []⟩)) := by
  refine ⟨?_, ?_, ?_, ?_⟩
  · intro now cfg st
    simp [StreamStateManager.performCleanup, List.countP_eq_length_filter]
  · intro now cfg st sid s hnd h
    unfold StreamStateManager.performCleanup StreamStateManager.getSession
    rw [alookup_filter _ sid s st.sessions hnd h]
    cases hsc : StreamStateManager.shouldCleanup cfg now s <;> simp [hsc]
  · intro now cfg st sid s c hndc hs hc
    unfold StreamStateManager.performCleanup StreamStateManager.getContext
    rw [alookup_filter _ sid c st.contexts hndc hc]
    simp only [hs]
    cases hsc : StreamStateManager.shouldCleanup cfg now s <;> simp [hsc]
  · intro T sid chatId userId
    have hsc : StreamStateManager.shouldCleanup
        { defaultCleanupConfig with maxInactiveDuration := 5000 } (T + 6000)
        (StreamStateManager.initialSession T chatId userId) = true := by
      simp only [StreamStateManager.shouldCleanup,
        StreamStateManager.initialSession, add_sub_cancel_left,
        Bool.or_eq_true, decide_eq_true_eq, defaultCleanupConfig]
      norm_num
    simp [StreamStateManager.performCleanup, hsc, alookup]

/-- Witness for C6 (amended) at a concrete store: one active session
whose inactivity exceeds the limit is gone after the sweep, and the
count is 1. -/
theorem performCleanup_spec_witness :
    StreamStateManager.getSession "s"
        (StreamStateManager.performCleanup 6000
          { defaultCleanupConfig with maxInactiveDuration := 5000 }
          ⟨[("s", StreamStateManager.initialSession 0 1 2)],
           [("s", StreamStateManager.initialContext 0)]⟩).2 =
      (if StreamStateManager.shouldCleanup
          { defaultCleanupConfig with maxInactiveDuration := 5000 } 6000
          (StreamStateManager.initialSession 0 1 2) then none
       else some (StreamStateManager.initialSession 0 1 2)) ∧
    StreamStateManager.performCleanup (0 + 6000)
        { defaultCleanupConfig with maxInactiveDuration := 5000 }
        ⟨[("s", StreamStateManager.initialSession 0 1 2)],
         [("s", StreamStateManager.initialContext 0)]⟩ =
      (1, ⟨[], []⟩) :=
  ⟨performCleanup_spec.2.1 6000
      { defaultCleanupConfig with maxInactiveDuration := 5000 }
      ⟨[("s", StreamStateManager.initialSession 0 1 2)],
       [("s", StreamStateManager.initialContext 0)]⟩ "s"
      (StreamStateManager.initialSession 0 1 2) (by simp)
      (by simp [alookup]),
    performCleanup_spec.2.2.2 0 "s" 1 2⟩

/-! ## Claim C10: `recordError` -/

/-- C10.  For an existing session, `recordError` returns `true`,
increments the context's error count, refreshes the session's
last-activity time, and sets the session status to the terminal `ERROR`
exactly when the incremented cumulative count exceeds 3 — with a count
of 3 or fewer the status is left unchanged.  All other session fields
are untouched. -/
theorem recordError_spec (now : ℚ) (sid : String) (st : ManagerState)
    (s : StreamSession) (c : StreamContext)
    (hs : alookup sid st.sessions = some s)
    (hc : alookup sid st.contexts = some c) :
    (StreamStateManager.recordError now sid st).1 = true ∧
    StreamStateManager.getContext sid
        (StreamStateManager.recordError now sid st).2 =
      some { c with errorCount := c.errorCount + 1 } ∧
    ∃ s', StreamStateManager.getSession sid
        (StreamStateManager.recordError now sid st).2 = some s' ∧
      s'.lastActivity = now ∧
      (3 < c.errorCount + 1 → s'.status = .ERROR) ∧
      (c.errorCount + 1 ≤ 3 → s'.status = s.status) ∧
      s'.chatId = s.chatId ∧ s'.userId = s.userId ∧
      s'.startTime = s.startTime ∧ s'.messageId = s.messageId := by
  refine ⟨?_, ?_, ?_⟩
  · simp [StreamStateManager.recordError, hc]
  · simp only [StreamStateManager.recordError, hc,
      StreamStateManager.getContext]
    rw [alookup_aupdate_self, hc, Option.map_some']
  · simp only [StreamStateManager.recordError, hc,
      StreamStateManager.getSession]
    rw [alookup_aupdate_self, hs, Option.map_some']
    refine ⟨_, rfl, rfl, ?_, ?_, rfl, rfl, rfl, rfl⟩
    · intro h
      simp only [if_pos h]
    · intro h
      simp only [if_neg (not_lt.2 h)]

/-- Witness for C10: the fourth error on a session (count going from 3
to 4) marks it `ERROR`. -/
theorem recordError_spec_witness :
    (StreamStateManager.recordError 9 "s"
        ⟨[("s", StreamStateManager.initialSession 0 1 2)],
         [("s", { StreamStateManager.initialContext 0 with errorCount := 3 })]⟩).1
      = true ∧
    StreamStateManager.getContext "s"
        (StreamStateManager.recordError 9 "s"
          ⟨[("s", StreamStateManager.initialSession 0 1 2)],
           [("s", { StreamStateManager.initialContext 0 with
                    errorCount := 3 })]⟩).2 =
      some { StreamStateManager.initialContext 0 with errorCount := 4 } ∧
    ∃ s', StreamStateManager.getSession "s"
        (StreamStateManager.recordError 9 "s"
          ⟨[("s", StreamStateManager.initialSession 0 1 2)],
           [("s", { StreamStateManager.initialContext 0 with
                    errorCount := 3 })]⟩).2 = some s' ∧
      s'.lastActivity = 9 ∧
      (3 < 3 + 1 → s'.status = .ERROR) ∧
      (3 + 1 ≤ 3 → s'.status = (StreamStateManager.initialSession 0 1 2).status) ∧
      s'.chatId = (StreamStateManager.initialSession 0 1 2).chatId ∧
      s'.userId = (StreamStateManager.initialSession 0 1 2).userId ∧
      s'.startTime = (StreamStateManager.initialSession 0 1 2).startTime ∧
      s'.messageId = (StreamStateManager.initialSession 0 1 2).messageId := by
  have h := recordError_spec 9 "s"
    ⟨[("s", StreamStateManager.initialSession 0 1 2)],
     [("s", { StreamStateManager.initialContext 0 with errorCount := 3 })]⟩
    (StreamStateManager.initialSession 0 1 2)
    { StreamStateManager.initialContext 0 with errorCount := 3 }
    (by simp [alookup]) (by simp [alookup])
  simpa [StreamStateManager.initialContext] using h

/-! ## Claim C7: finalize is idempotent in remote calls -/

namespace TelegramStreamHandler

theorem updateMessage_skip (fmt : String → String) (nid : ℤ) (x : HandlerState)
    (h : x.lastSentText = fmt x.currentText) :
    updateMessage fmt nid x = (x, 0) := by
  simp only [updateMessage]
  rw [if_pos h]

theorem updateMessage_state (fmt : String → String) (nid : ℤ) (s : HandlerState) :
    ((updateMessage fmt nid s).1).currentText = s.currentText ∧
    ((updateMessage fmt nid s).1).lastSentText = fmt s.currentText ∧
    ((updateMessage fmt nid s).1).updateQueue = s.updateQueue ∧
    (updateMessage fmt nid s).2 ≤ 1 := by
  simp only [updateMessage]
  split_ifs with h
  · exact ⟨rfl, h, rfl, by norm_num⟩
  · cases hm : s.messageId <;> simp [hm]

theorem processChunks_state (fmt : String → String) (nid : ℤ) :
    ∀ (chunks : List String) (s : HandlerState),
      ((processChunks fmt nid chunks s).1).updateQueue = s.updateQueue ∧
      (chunks ≠ [] →
        ((processChunks fmt nid chunks s).1).lastSentText =
          fmt ((processChunks fmt nid chunks s).1).currentText) := by
  intro chunks
  induction chunks with
  | nil => intro s; exact ⟨rfl, fun h => absurd rfl h⟩
  | cons c rest ih =>
    intro s
    simp only [processChunks]
    set s1 : HandlerState := { s with currentText := s.currentText ++ c } with hs1
    obtain ⟨hu1, hu2, hu3, _⟩ := updateMessage_state fmt nid s1
    obtain ⟨hp1, hp2⟩ := ih (updateMessage fmt nid s1).1
    constructor
    · rw [hp1, hu3]
    · intro _
      rcases hr : rest with _ | ⟨d, ds⟩
      · simp only [hr, processChunks]
        rw [hu2, hu1]
      · have := hp2 (by simp [hr])
        rwa [hr] at this

theorem finalize_post (fmt : String → String) (nid : ℤ) (s : HandlerState) :
    ((finalize fmt nid s).1).updateQueue = [] ∧
    (((finalize fmt nid s).1).lastSentText =
        fmt ((finalize fmt nid s).1).currentText ∨
      ((finalize fmt nid s).1).currentText = "" ∨
      ((finalize fmt nid s).1).currentText =
        ((finalize fmt nid s).1).lastSentText) := by
  have hq : (processChunks fmt nid s.updateQueue
      { s with updateQueue := [] }).1.updateQueue = [] :=
    (processChunks_state fmt nid s.updateQueue { s with updateQueue := [] }).1
  simp only [finalize, processUpdateQueue]
  split_ifs with hcond
  · obtain ⟨hu1, hu2, hu3, -⟩ := updateMessage_state fmt nid
      (processChunks fmt nid s.updateQueue { s with updateQueue := [] }).1
    dsimp only
    rw [hu3, hu2, hu1]
    exact ⟨hq, Or.inl rfl⟩
  · rw [not_and_or, not_not, not_not] at hcond
    dsimp only
    exact ⟨hq, Or.inr hcond⟩

theorem finalize_count_zero (fmt : String → String) (nid : ℤ) (s : HandlerState)
    (hq : s.updateQueue = [])
    (h : s.lastSentText = fmt s.currentText ∨ s.currentText = "" ∨
      s.currentText = s.lastSentText) :
    (finalize fmt nid s).2 = 0 := by
  simp only [finalize, processUpdateQueue, hq, processChunks]
  split_ifs with hcond
  · dsimp only
    rcases h with h | h | h
    · have h0 : ({ s with updateQueue := ([] : List String) } :
          HandlerState).lastSentText =
          fmt ({ s with updateQueue := ([] : List String) } :
            HandlerState).currentText := h
      rw [updateMessage_skip fmt nid _ h0]
      rfl
    · exact absurd h hcond.1
    · exact absurd h hcond.2
  · rfl

theorem finalize_count_le_one (fmt : String → String) (nid : ℤ)
    (s : HandlerState) (hq : s.updateQueue = []) :
    (finalize fmt nid s).2 ≤ 1 := by
  simp only [finalize, processUpdateQueue, hq, processChunks]
  split_ifs with hcond
  · dsimp only
    have := (updateMessage_state fmt nid
      ({ s with updateQueue := [] } : HandlerState)).2.2.2
    omega
  · exact Nat.zero_le 1

end TelegramStreamHandler

/-- C7.  The second of two successive `finalize()` calls performs zero
remote send/edit calls; with no buffered chunks, two successive
`finalize()` calls perform at most one remote call in total; a
`finalize()` whose accumulated text equals the last transmitted text
performs zero remote calls; and `updateMessage` itself skips the remote
call whenever the formatted text equals what was last sent. -/
theorem finalize_idempotent_remote_calls :
    (∀ (fmt : String → String) (nid nid' : ℤ) (s : HandlerState),
      (TelegramStreamHandler.finalize fmt nid'
        (TelegramStreamHandler.finalize fmt nid s).1).2 = 0) ∧
    (∀ (fmt : String → String) (nid nid' : ℤ) (s : HandlerState),
      s.updateQueue = [] →
      (TelegramStreamHandler.finalize fmt nid s).2 +
        (TelegramStreamHandler.finalize fmt nid'
          (TelegramStreamHandler.finalize fmt nid s).1).2 ≤ 1) ∧
    (∀ (fmt : String → String) (nid : ℤ) (s : HandlerState),
      s.updateQueue = [] → s.currentText = s.lastSentText →
      (TelegramStreamHandler.finalize fmt nid s).2 = 0) ∧
    (∀ (fmt : String → String) (nid : ℤ) (s : HandlerState),
      fmt s.currentText = s.lastSentText →
      (TelegramStreamHandler.updateMessage fmt nid s).2 = 0) := by
  have hsecond : ∀ (fmt : String → String) (nid nid' : ℤ) (s : HandlerState),
      (TelegramStreamHandler.finalize fmt nid'
        (TelegramStreamHandler.finalize fmt nid s).1).2 = 0 := by
    intro fmt nid nid' s
    obtain ⟨hq, hd⟩ := TelegramStreamHandler.finalize_post fmt nid s
    refine TelegramStreamHandler.finalize_count_zero fmt nid' _ hq ?_
    rcases hd with h | h | h
    · exact Or.inl h
    · exact Or.inr (Or.inl h)
    · exact Or.inr (Or.inr h)
  refine ⟨hsecond, ?_, ?_, ?_⟩
  · intro fmt nid nid' s hq
    have h1 := TelegramStreamHandler.finalize_count_le_one fmt nid s hq
    have h2 := hsecond fmt nid nid' s
    omega
  · intro fmt nid s hq heq
    exact TelegramStreamHandler.finalize_count_zero fmt nid s hq
      (Or.inr (Or.inr heq))
  · intro fmt nid s h
    unfold TelegramStreamHandler.updateMessage
    rw [if_pos h.symm]

/-- Witness for C7: a handler with no buffered chunks whose accumulated
text equals the last transmitted text makes zero remote calls on
`finalize`, and `updateMessage` under the identity formatter skips. -/
theorem finalize_idempotent_remote_calls_witness :
    (TelegramStreamHandler.finalize id 5
      ⟨"a", "a", none, [], true⟩).2 = 0 ∧
    (TelegramStreamHandler.updateMessage id 5
      ⟨"a", "a", some 3, [], true⟩).2 = 0 :=
  ⟨finalize_idempotent_remote_calls.2.2.1 id 5 ⟨"a", "a", none, [], true⟩
      rfl rfl,
    finalize_idempotent_remote_calls.2.2.2 id 5 ⟨"a", "a", some 3, [], true⟩
      rfl⟩

/-! ## Claim C8: the backoff delay formula

The claim states the delay *equals*
`min(maxDelay, baseDelay * 2^failures) * multiplier * jitter`; the code
(types.ts line 475) additionally applies `Math.floor` to the product, so
for a non-integral product the two differ. -/

/-- Counterexample to C8 as stated: at the default configuration with
zero consecutive failures, multiplier 1 and sampled jitter
0.8505 ∈ [0.85, 1.15), the code's delay is `floor(850.5) = 850`, while
the claimed product is `850.5 ≠ 850`. -/
theorem calculateDelay_floor_counterexample :
    BackoffStrategy.calculateDelay defaultConfig 0 1 (8505/10000) = 850 ∧
    BackoffStrategy.claimedDelay defaultConfig 0 1 (8505/10000) =
      8505/10 ∧
    ((850 : ℚ) ≠ 8505/10) ∧
    (17/20 : ℚ) ≤ 8505/10000 ∧ (8505/10000 : ℚ) < 23/20 := by
  have hfloor : (⌊(8505 : ℚ)/10⌋ : ℤ) = 850 := by
    rw [Int.floor_eq_iff]
    constructor <;> norm_num
  refine ⟨?_, ?_, by norm_num, by norm_num, by norm_num⟩
  · show (⌊min ((1000 : ℚ) * 2 ^ (0 : ℕ)) 30000 * 1 * (8505/10000)⌋ : ℤ) = 850
    rw [min_eq_left (by norm_num : (1000 : ℚ) * 2 ^ (0 : ℕ) ≤ 30000),
      show (1000 : ℚ) * 2 ^ (0 : ℕ) * 1 * (8505/10000) = 8505/10 by norm_num]
    exact hfloor
  · show min (30000 : ℚ) ((1000 : ℚ) * 2 ^ (0 : ℕ)) * 1 * (8505/10000) =
      8505/10
    rw [min_eq_right (by norm_num : (1000 : ℚ) * 2 ^ (0 : ℕ) ≤ 30000)]
    norm_num

/-- C8 (amended).  The computed delay is the *floor* of
`min(maxDelay, baseDelay * 2^failures) * multiplier * jitter` (jitter is
the sampled factor, which lies in [0.85, 1.15)); for a non-negative base
delay, multiplier and jitter the delay is non-decreasing in the
consecutive-failure count; and `recordSuccess` resets the streak to
zero, after which the computed delay is the floored base value
`floor(baseDelay * multiplier * jitter)`. -/
theorem calculateDelay_spec :
    (∀ (cfg : RateLimitConfig) (f : ℕ) (mult j : ℚ),
      BackoffStrategy.calculateDelay cfg f mult j =
        Int.floor (BackoffStrategy.claimedDelay cfg f mult j)) ∧
    (∀ (cfg : RateLimitConfig) (mult j : ℚ) (f₁ f₂ : ℕ),
      0 ≤ cfg.baseBackoffDelay → 0 ≤ mult → 0 ≤ j → f₁ ≤ f₂ →
      BackoffStrategy.calculateDelay cfg f₁ mult j ≤
        BackoffStrategy.calculateDelay cfg f₂ mult j) ∧
    (∀ (cfg : RateLimitConfig) (f : ℕ) (mult j : ℚ),
      cfg.baseBackoffDelay ≤ cfg.maxBackoffDelay →
      BackoffStrategy.calculateDelay cfg (BackoffStrategy.recordSuccess f)
          mult j =
        Int.floor (cfg.baseBackoffDelay * mult * j)) := by
  refine ⟨?_, ?_, ?_⟩
  · intro cfg f mult j
    unfold BackoffStrategy.calculateDelay BackoffStrategy.claimedDelay
    rw [min_comm]
  · intro cfg mult j f₁ f₂ hbase hmult hj hf
    unfold BackoffStrategy.calculateDelay
    refine Int.floor_le_floor ?_
    refine mul_le_mul_of_nonneg_right (mul_le_mul_of_nonneg_right ?_ hmult) hj
    refine min_le_min ?_ (le_refl _)
    exact mul_le_mul_of_nonneg_left
      (pow_le_pow_right₀ (by norm_num : (1 : ℚ) ≤ 2) hf) hbase
  · intro cfg f mult j hle
    unfold BackoffStrategy.calculateDelay BackoffStrategy.recordSuccess
    rw [pow_zero, mul_one, min_eq_left hle]

/-- Witness for C8 (amended) at the default configuration: the delay at
one failure is at least the delay at zero failures, and after
`recordSuccess` the delay is the floored base value. -/
theorem calculateDelay_spec_witness :
    BackoffStrategy.calculateDelay defaultConfig 0 1 1 ≤
      BackoffStrategy.calculateDelay defaultConfig 1 1 1 ∧
    BackoffStrategy.calculateDelay defaultConfig
        (BackoffStrategy.recordSuccess 4) 1 1 =
      Int.floor ((defaultConfig.baseBackoffDelay : ℚ) * 1 * 1) :=
  ⟨calculateDelay_spec.2.1 defaultConfig 1 1 0 1
      (by norm_num [defaultConfig]) (by norm_num) (by norm_num) (by norm_num),
    calculateDelay_spec.2.2 defaultConfig 4 1 1
      (by norm_num [defaultConfig])⟩

end PersonalAgent
